import Mathlib

/-!
Shallow embedding of the CloudLinux file-system analyzer (src/main.py)
and verification of the frozen specification claims.

The embedding models, from the source:
  * `get_category` (src/main.py lines 20-47), including the behaviour of the
    standard-library helpers it calls (`mimetypes.guess_type`,
    `os.path.splitext`);
  * `analyze_file` (lines 50-102), with the fallible metadata calls
    (`os.path.getsize`, `os.stat`) represented by explicit `Except` outcomes;
  * `analyze_directory` (lines 105-152), with the filesystem represented by an
    explicit state (status of the root directory plus the list of walked
    regular files with their metadata-call outcomes), and the
    `as_completed` merge loop represented by a left fold over a completion
    order of the per-file results.
-/

namespace Analyzer

/-- Index (0-based) of the last occurrence of character `c` in `cs`,
`none` when `c` does not occur.  Models Python `str.rfind` (which returns
-1 for absence; the `Option` plays that role here). -/
def lastIdxOf (c : Char) (cs : List Char) : Option Nat :=
  match cs.reverse.findIdx? (fun a => a = c) with
  | some i => some (cs.length - 1 - i)
  | none => none

/-- Models Python `posixpath.splitext` (the `os.path.splitext` used on POSIX):
split `p` into `(root, ext)` at the last dot of the basename, where the
leading dots of the basename never start an extension (so `".bashrc"` has no
extension).  `ext` is empty or begins with the dot. -/
def splitext (p : String) : String × String :=
  let cs := p.toList
  -- index of the first character of the basename (0 when there is no slash)
  let base0 : Nat := match lastIdxOf '/' cs with
    | some i => i + 1
    | none => 0
  match lastIdxOf '.' cs with
  | some d =>
    if base0 ≤ d ∧ ((cs.drop base0).take (d - base0)).any (fun a => a ≠ '.') then
      (⟨cs.take d⟩, ⟨cs.drop d⟩)
    else (p, "")
  | none => (p, "")

/-- ASCII lower-casing of one character.  The extensions and MIME names this
development manipulates are ASCII, where Python `str.lower` acts exactly
like this. -/
def toLowerChar (c : Char) : Char :=
  if 65 ≤ c.toNat ∧ c.toNat ≤ 90 then Char.ofNat (c.toNat + 32) else c

/-- Models Python `str.lower` on ASCII strings. -/
def strToLower (s : String) : String :=
  ⟨s.toList.map toLowerChar⟩

/-- Models `mime_type.split("/")[0]`: the part of a MIME name before the
first slash (the broad type, e.g. `"text"` from `"text/plain"`). -/
def mimeMainType (mime : String) : String :=
  ⟨mime.toList.takeWhile (fun c => c ≠ '/')⟩

/-- `mimetypes.MimeTypes.suffix_map`: composite suffixes rewritten before the
type lookup; matched case-insensitively by `guess_type`. -/
def suffix_map : List (String × String) :=
  [(".svgz", ".svg.gz"), (".tgz", ".tar.gz"), (".taz", ".tar.gz"),
   (".tz", ".tar.gz"), (".tbz2", ".tar.bz2"), (".txz", ".tar.xz")]

/-- `mimetypes.MimeTypes.encodings_map`: compression suffixes stripped before
the type lookup.  Matched case-sensitively by `guess_type` (the stdlib
docstring: encoding suffixes are case sensitive). -/
def encodings_map : List (String × String) :=
  [(".gz", "gzip"), (".Z", "compress"), (".bz2", "bzip2"),
   (".xz", "xz"), (".br", "br")]

/-- The stdlib MIME type table (`mimetypes.types_map`), restricted to the
extensions exercised by this development: the extensions of the analyzer's
`EXTENSION_CATEGORIES` table together with `.xyz` (present in the stdlib
table as `chemical/x-xyz`); `.dat` and `.log` are absent from the stdlib
table, and so absent here. -/
def types_map : List (String × String) :=
  [(".txt", "text/plain"), (".md", "text/markdown"), (".csv", "text/csv"),
   (".jpg", "image/jpeg"), (".jpeg", "image/jpeg"), (".png", "image/png"),
   (".gif", "image/gif"), (".zip", "application/zip"),
   (".tar", "application/x-tar"), (".mp3", "audio/mpeg"),
   (".wav", "audio/x-wav"), (".mp4", "video/mp4"),
   (".avi", "video/x-msvideo"), (".pdf", "application/pdf"),
   (".doc", "application/msword"),
   (".docx", "application/vnd.openxmlformats-officedocument.wordprocessingml.document"),
   (".xyz", "chemical/x-xyz")]

/-- The extension finally looked up in `types_map` by `guess_type`:
apply the (case-insensitive) suffix map, then strip a (case-sensitive)
compression suffix.  For this `suffix_map` every rewritten suffix ends in
`.gz`, `.bz2` or `.xz`, none of which is itself in `suffix_map`, so the
stdlib's rewrite loop reaches its fixpoint after one substitution and is
unrolled once here. -/
def guess_ext (base ext : String) : String :=
  match List.lookup (strToLower ext) suffix_map with
  | some repl =>
    let se := splitext (base ++ repl)
    if (List.lookup se.2 encodings_map).isSome then (splitext se.1).2 else se.2
  | none =>
    if (List.lookup ext encodings_map).isSome then (splitext base).2 else ext

/-- Models `mimetypes.guess_type(url)[0]` (strict mode, the default) for a
plain filesystem path: split off the extension, rewrite composite suffixes,
strip a compression suffix, then look the lower-cased extension up in the
type table.  The stdlib's data-URL and URL-scheme handling is omitted: the
analyzer only passes filesystem paths. -/
def guess_type (url : String) : Option String :=
  List.lookup (strToLower (guess_ext (splitext url).1 (splitext url).2)) types_map

/-- The analyzer's extension table (src/main.py lines 9-17), in source
(insertion) order. -/
def EXTENSION_CATEGORIES : List (String × List String) :=
  [("text", ["txt", "md", "csv", "log"]),
   ("image", ["jpg", "jpeg", "png", "gif"]),
   ("executable", ["exe", "bin", "sh"]),
   ("archive", ["zip", "tar", "gz", "bz2"]),
   ("audio", ["mp3", "wav"]),
   ("video", ["mp4", "avi"]),
   ("document", ["pdf", "doc", "docx"])]

/-- Python `s.lstrip(".")`: remove all leading dots. -/
def lstripDots (s : String) : String :=
  ⟨s.toList.dropWhile (fun c => c = '.')⟩

/-- The extension-table fallback of `get_category`
(src/main.py lines 39-47): lower-case the extension, strip the dot, return
the first category whose extension list contains it, else "unknown". -/
def category_by_extension (file_path : String) : String :=
  let ext := lstripDots (strToLower (splitext file_path).2)
  match EXTENSION_CATEGORIES.find? (fun ce => ce.2.contains ext) with
  | some ce => ce.1
  | none => "unknown"

/-- `get_category` (src/main.py lines 20-47): try the MIME type first; if its
broad part (before the slash) is a key of `EXTENSION_CATEGORIES`, return it,
otherwise fall back to the extension table. -/
def get_category (file_path : String) : String :=
  match guess_type file_path with
  | some mime_type =>
    let category := mimeMainType mime_type
    if (EXTENSION_CATEGORIES.map Prod.fst).contains category then category
    else category_by_extension file_path
  | none => category_by_extension file_path

/-- The eight possible results of `get_category`. -/
def category_names : List String :=
  ["text", "image", "executable", "archive", "audio", "video", "document",
   "unknown"]

/-- The kinds of OS-level failure a per-file metadata call can raise
(`FileNotFoundError`, `PermissionError`, any other exception) —
the PerFileError taxonomy. -/
inductive PerFileError where
  | notFound
  | accessDenied
  | ioError
deriving DecidableEq, Repr

instance {ε α : Type} [DecidableEq ε] [DecidableEq α] :
    DecidableEq (Except ε α) := fun x y =>
  match x, y with
  | .ok a, .ok b =>
    if h : a = b then isTrue (by rw [h])
    else isFalse (by intro hh; cases hh; exact h rfl)
  | .ok _, .error _ => isFalse (by intro hh; cases hh)
  | .error _, .ok _ => isFalse (by intro hh; cases hh)
  | .error e, .error f =>
    if h : e = f then isTrue (by rw [h])
    else isFalse (by intro hh; cases hh; exact h rfl)

/-- The outcomes of the two metadata calls `analyze_file` performs on one
path: `os.path.getsize` (the size, or the exception it raises) and
`os.stat(...).st_mode` (the permission bits, or the exception). -/
structure FileMeta where
  getsize : Except PerFileError Nat
  statMode : Except PerFileError Nat
deriving DecidableEq, Repr

/-- The per-file record `analyze_file` builds (its `file_info` dict). -/
structure FileInfo where
  category : String
  size : Nat
  permissions : String
deriving DecidableEq, Repr

/-- `stat.S_IWOTH` -/
def S_IWOTH : Nat := 2
/-- `stat.S_IROTH` -/
def S_IROTH : Nat := 4
/-- `stat.S_IXOTH` -/
def S_IXOTH : Nat := 1

/-- `analyze_file` (src/main.py lines 50-102).  `file_info` starts as
category "unknown", size 0, permissions "normal"; the `try` block sets the
fields in order (size, category, permission flag) and the first raising call
aborts the rest, the handlers only print, and the partially-filled
`file_info` is returned in every case.  The `if file_size > size_threshold`
statement inside the source's `try` block only re-assigns the size to itself,
so it does not appear.  The size threshold is a Python int (Int here), the
size a non-negative int (Nat). -/
def analyze_file (file_path : String) (meta : FileMeta) (size_threshold : Int) :
    String × FileInfo :=
  match meta.getsize with
  | .error _ =>
    (file_path, { category := "unknown", size := 0, permissions := "normal" })
  | .ok file_size =>
    let category := get_category file_path
    match meta.statMode with
    | .error _ =>
      (file_path, { category := category, size := file_size, permissions := "normal" })
    | .ok mode =>
      let permissions :=
        if mode &&& S_IWOTH ≠ 0 then "Writable by others"
        else if mode &&& S_IROTH ≠ 0 then "Readable by others"
        else if mode &&& S_IXOTH ≠ 0 then "Executable by others"
        else "normal"
      (file_path, { category := category, size := file_size, permissions := permissions })

/-- The labels the merge loop (src/main.py lines 145-149) treats as unusual
permissions. -/
def unusual_labels : List String :=
  ["Writable by others", "Readable by others", "Executable by others"]

/-- The three aggregate structures of `analyze_directory`:
`file_categories` is the `defaultdict(int)` as an insertion-ordered
association list (a key appears when it is first touched, even by adding 0),
the two lists grow by appending in merge (completion) order. -/
structure Aggregates where
  file_categories : List (String × Nat)
  large_files : List (String × Nat)
  unusual_permissions : List (String × String)
deriving DecidableEq, Repr

/-- `file_categories[category] += size` on a `defaultdict(int)`: add to the
first entry with this key, or append a new entry holding the added value
(the defaultdict first materialises the key with value 0). -/
def addToCategory (m : List (String × Nat)) (k : String) (v : Nat) :
    List (String × Nat) :=
  match m with
  | [] => [(k, v)]
  | kv :: rest =>
    if kv.1 = k then (kv.1, kv.2 + v) :: rest else kv :: addToCategory rest k v

/-- One iteration of the merge loop (src/main.py lines 133-150) on the result
of one completed future. -/
def merge_result (size_threshold : Int) (acc : Aggregates)
    (r : String × FileInfo) : Aggregates :=
  -- if file_info["category"]: Python truthiness of a string is non-emptiness
  let acc1 :=
    if r.2.category ≠ "" then
      { acc with file_categories := addToCategory acc.file_categories r.2.category r.2.size }
    else acc
  let acc2 :=
    if (r.2.size : Int) > size_threshold then
      { acc1 with large_files := acc1.large_files ++ [(r.1, r.2.size)] }
    else acc1
  if unusual_labels.contains r.2.permissions then
    { acc2 with unusual_permissions := acc2.unusual_permissions ++ [(r.1, r.2.permissions)] }
  else acc2

/-- The whole merge loop: fold `merge_result` over the per-file results in
the order `as_completed` yields them. -/
def merge_results (size_threshold : Int) (results : List (String × FileInfo)) :
    Aggregates :=
  results.foldl (merge_result size_threshold) ⟨[], [], []⟩

/-- Status of the root directory as the OS primitives see it:
`notADir` — `os.path.isdir` is false (missing, a non-directory, or not even
statable); `openableDir` — a directory that `os.walk` can enumerate;
`unopenableDir` — a directory (so `os.path.isdir` is true) whose listing
fails, which `os.walk` silently skips (its default `onerror` ignores the
error), yielding nothing. -/
inductive RootStatus where
  | notADir
  | openableDir
  | unopenableDir
deriving DecidableEq, Repr

/-- The filesystem state one run of `analyze_directory` observes: the status
of the root and the regular files under it, in the order `os.walk` produces
them, each with the outcomes of its metadata calls. -/
structure FS where
  root : RootStatus
  files : List (String × FileMeta)
deriving Repr

/-- `os.path.isdir(directory)`. -/
def os_path_isdir (fs : FS) : Bool :=
  fs.root ≠ RootStatus.notADir

/-- The regular files delivered by the `os.walk` loop
(src/main.py lines 127-130): all files under an openable root; nothing when
the root's listing fails (`os.walk`'s default `onerror` swallows the error). -/
def os_walk_files (fs : FS) : List (String × FileMeta) :=
  match fs.root with
  | .openableDir => fs.files
  | _ => []

/-- The results of all submitted `analyze_file` tasks, in submission order. -/
def submitted_results (fs : FS) (size_threshold : Int) :
    List (String × FileInfo) :=
  (os_walk_files fs).map (fun pm => analyze_file pm.1 pm.2 size_threshold)

/-- `analyze_directory` (src/main.py lines 105-152): raise `OSError` when
`os.path.isdir` fails, otherwise submit one `analyze_file` task per walked
file and fold the results into the aggregates.  The fold is taken in
submission order; `analyze_directory_completed` below exposes the arbitrary
completion order of `as_completed`. -/
def analyze_directory (fs : FS) (size_threshold : Int) :
    Except String Aggregates :=
  if ¬ os_path_isdir fs then
    .error "Directory does not exist or is inaccessible."
  else
    .ok (merge_results size_threshold (submitted_results fs size_threshold))

/-- `analyze_directory` with the merge loop consuming the completed futures
in an explicit completion order `completed` (any permutation of
`submitted_results`). -/
def analyze_directory_completed (fs : FS) (size_threshold : Int)
    (completed : List (String × FileInfo)) : Except String Aggregates :=
  if ¬ os_path_isdir fs then
    .error "Directory does not exist or is inaccessible."
  else
    .ok (merge_results size_threshold completed)

/-- Reading a `defaultdict(int)`-style association list: the value at `k`,
0 when the key is absent (Python `d.get(k, 0)`). -/
def totalOf (m : List (String × Nat)) (k : String) : Nat :=
  match m with
  | [] => 0
  | kv :: rest => if kv.1 = k then kv.2 else totalOf rest k

/-- Whether the key `k` is present (`k in d` on the Python dict). -/
def hasKey (m : List (String × Nat)) (k : String) : Bool :=
  m.any (fun kv => kv.1 = k)

/-- The sum of all values of the category map (`sum(d.values())`). -/
def sumTotals (m : List (String × Nat)) : Nat :=
  (m.map Prod.snd).sum

/-- The large-file entries contributed by a result list, in order:
one entry per result whose size strictly exceeds the threshold
(src/main.py lines 141-142). -/
def largeContrib (size_threshold : Int) (l : List (String × FileInfo)) :
    List (String × Nat) :=
  l.filterMap (fun r =>
    if (r.2.size : Int) > size_threshold then some (r.1, r.2.size) else none)

/-- The unusual-permission entries contributed by a result list, in order
(src/main.py lines 145-150). -/
def unusualContrib (l : List (String × FileInfo)) : List (String × String) :=
  l.filterMap (fun r =>
    if unusual_labels.contains r.2.permissions then some (r.1, r.2.permissions)
    else none)

/-- The bytes a single result adds to the total of category `k`. -/
def catAdd (k : String) (r : String × FileInfo) : Nat :=
  if r.2.category = k ∧ r.2.category ≠ "" then r.2.size else 0

/-- The bytes contributed to category `k` by a result list. -/
def catContrib (k : String) (l : List (String × FileInfo)) : Nat :=
  (l.map (catAdd k)).sum

/-- The bytes a single result adds across all categories. -/
def sizeAdd (r : String × FileInfo) : Nat :=
  if r.2.category ≠ "" then r.2.size else 0

/-- Whether a single result touches (creates or updates) the entry of
category `k`. -/
def touches (k : String) (r : String × FileInfo) : Bool :=
  decide (r.2.category ≠ "" ∧ r.2.category = k)

/-- The bytes a walked file should contribute to category `k`: its size when
its size retrieval succeeded and it classifies as `k`, otherwise 0. -/
def sizeOfSuccessful (k : String) (pm : String × FileMeta) : Nat :=
  match pm.2.getsize with
  | .ok sz => if get_category pm.1 = k then sz else 0
  | .error _ => 0

/-- The size of a walked file when its size retrieval succeeded, else 0. -/
def sizeIfOk (pm : String × FileMeta) : Nat :=
  match pm.2.getsize with
  | .ok sz => sz
  | .error _ => 0

/-- Python dict equality on the category map: same keys, same values. -/
def dictEq (m1 m2 : List (String × Nat)) : Prop :=
  (∀ k, hasKey m1 k = hasKey m2 k) ∧ (∀ k, totalOf m1 k = totalOf m2 k)

/- ------------------------------------------------------------------ -/
/- Helper lemmas                                                      -/
/- ------------------------------------------------------------------ -/

theorem analyze_file_fst (p : String) (m : FileMeta) (t : Int) :
    (analyze_file p m t).1 = p := by
  obtain ⟨gs, sm⟩ := m
  cases gs <;> cases sm <;> simp [analyze_file]

theorem analyze_file_of_getsize_error (p : String) (m : FileMeta) (t : Int)
    (e : PerFileError) (h : m.getsize = .error e) :
    analyze_file p m t = (p, ⟨"unknown", 0, "normal"⟩) := by
  obtain ⟨gs, sm⟩ := m
  cases gs with
  | error e2 => cases sm <;> simp [analyze_file]
  | ok sz => simp at h

theorem analyze_file_size_of_getsize_ok (p : String) (m : FileMeta) (t : Int)
    (sz : Nat) (h : m.getsize = .ok sz) :
    (analyze_file p m t).2.size = sz := by
  obtain ⟨gs, sm⟩ := m
  simp only at h
  subst h
  cases sm <;> simp [analyze_file]

theorem analyze_file_category_of_getsize_ok (p : String) (m : FileMeta)
    (t : Int) (sz : Nat) (h : m.getsize = .ok sz) :
    (analyze_file p m t).2.category = get_category p := by
  obtain ⟨gs, sm⟩ := m
  simp only at h
  subst h
  cases sm <;> simp [analyze_file]

theorem category_by_extension_mem (p : String) :
    category_by_extension p ∈ category_names := by
  unfold category_by_extension
  rcases hf : EXTENSION_CATEGORIES.find?
      (fun ce => ce.2.contains (lstripDots (strToLower (splitext p).2))) with _ | ce
  · simp only [hf]
    decide
  · simp only [hf]
    have hm := List.mem_of_find?_eq_some hf
    fin_cases hm <;> decide

theorem get_category_mem (p : String) : get_category p ∈ category_names := by
  unfold get_category
  rcases hg : guess_type p with _ | mime
  · exact category_by_extension_mem p
  · simp only
    split
    · rename_i hc
      have hmem : mimeMainType mime ∈ EXTENSION_CATEGORIES.map Prod.fst := by
        simpa using hc
      simp only [EXTENSION_CATEGORIES, List.map, List.mem_cons,
        List.not_mem_nil, or_false] at hmem
      rcases hmem with h | h | h | h | h | h | h <;> · rw [h]; decide
    · exact category_by_extension_mem p

theorem get_category_ne_empty (p : String) : get_category p ≠ "" := by
  intro h
  have hm := get_category_mem p
  rw [h] at hm
  exact absurd hm (by decide)

theorem totalOf_addToCategory (m : List (String × Nat)) (k k' : String)
    (v : Nat) :
    totalOf (addToCategory m k v) k'
      = totalOf m k' + (if k = k' then v else 0) := by
  induction m with
  | nil =>
    by_cases h : k = k' <;> simp [addToCategory, totalOf, h]
  | cons kv rest ih =>
    simp only [addToCategory]
    by_cases h1 : kv.1 = k
    · rw [if_pos h1]
      by_cases h2 : k = k'
      · have h3 : kv.1 = k' := h1.trans h2
        simp only [totalOf, if_pos h3, if_pos h2]
      · have h3 : ¬ kv.1 = k' := fun hh => h2 (h1.symm.trans hh)
        simp only [totalOf, if_neg h3, if_neg h2, Nat.add_zero]
    · rw [if_neg h1]
      by_cases h2 : kv.1 = k'
      · have h3 : ¬ k = k' := fun hh => h1 (h2.trans hh.symm)
        simp only [totalOf, if_pos h2, if_neg h3, Nat.add_zero]
      · simp only [totalOf, if_neg h2, ih]

theorem hasKey_addToCategory (m : List (String × Nat)) (k k' : String)
    (v : Nat) :
    hasKey (addToCategory m k v) k' = (hasKey m k' || decide (k = k')) := by
  induction m with
  | nil => simp [addToCategory, hasKey]
  | cons kv rest ih =>
    simp only [addToCategory]
    by_cases h1 : kv.1 = k
    · rw [if_pos h1]
      simp only [hasKey, List.any_cons]
      by_cases h2 : kv.1 = k'
      · simp [h2]
      · have h3 : ¬ k = k' := fun hh => h2 (h1.trans hh)
        simp [h2, h3]
    · rw [if_neg h1]
      simp only [hasKey, List.any_cons] at ih ⊢
      rw [ih, Bool.or_assoc]

theorem sumTotals_addToCategory (m : List (String × Nat)) (k : String)
    (v : Nat) :
    sumTotals (addToCategory m k v) = sumTotals m + v := by
  induction m with
  | nil => simp [addToCategory, sumTotals]
  | cons kv rest ih =>
    by_cases h1 : kv.1 = k
    · simp [addToCategory, sumTotals, h1]
      omega
    · simp [addToCategory, sumTotals, h1] at ih ⊢
      omega

theorem merge_result_file_categories (t : Int) (acc : Aggregates)
    (r : String × FileInfo) :
    (merge_result t acc r).file_categories
      = (if r.2.category ≠ "" then
          addToCategory acc.file_categories r.2.category r.2.size
        else acc.file_categories) := by
  unfold merge_result
  split <;> split <;> split <;> rfl

theorem merge_result_large_files (t : Int) (acc : Aggregates)
    (r : String × FileInfo) :
    (merge_result t acc r).large_files
      = acc.large_files
        ++ (if (r.2.size : Int) > t then [(r.1, r.2.size)] else []) := by
  unfold merge_result
  split <;> split <;> split <;> simp

theorem merge_result_unusual (t : Int) (acc : Aggregates)
    (r : String × FileInfo) :
    (merge_result t acc r).unusual_permissions
      = acc.unusual_permissions
        ++ (if unusual_labels.contains r.2.permissions then
              [(r.1, r.2.permissions)]
            else []) := by
  unfold merge_result
  split <;> split <;> split <;> simp

theorem foldl_merge_totalOf (t : Int) (l : List (String × FileInfo))
    (acc : Aggregates) (k : String) :
    totalOf (l.foldl (merge_result t) acc).file_categories k
      = totalOf acc.file_categories k + catContrib k l := by
  induction l generalizing acc with
  | nil => simp [catContrib]
  | cons r rest ih =>
    rw [List.foldl_cons, ih, merge_result_file_categories]
    by_cases hc : r.2.category ≠ ""
    · rw [if_pos hc, totalOf_addToCategory]
      simp only [catContrib, List.map_cons, List.sum_cons, catAdd]
      by_cases hk : r.2.category = k
      · simp only [if_pos hk, if_pos (And.intro hk hc)]
        omega
      · have h2 : ¬(r.2.category = k ∧ r.2.category ≠ "") := fun hh => hk hh.1
        simp only [if_neg hk, if_neg h2]
        omega
    · rw [if_neg hc]
      simp only [catContrib, List.map_cons, List.sum_cons, catAdd]
      have h2 : ¬(r.2.category = k ∧ r.2.category ≠ "") := fun hh => hc hh.2
      simp only [if_neg h2]
      omega

theorem foldl_merge_hasKey (t : Int) (l : List (String × FileInfo))
    (acc : Aggregates) (k : String) :
    hasKey (l.foldl (merge_result t) acc).file_categories k
      = (hasKey acc.file_categories k || l.any (touches k)) := by
  induction l generalizing acc with
  | nil => simp
  | cons r rest ih =>
    rw [List.foldl_cons, ih, merge_result_file_categories]
    by_cases hc : r.2.category ≠ ""
    · rw [if_pos hc, hasKey_addToCategory]
      simp only [List.any_cons, touches]
      by_cases hk : r.2.category = k
      · have d1 : (decide (r.2.category = k)) = true := decide_eq_true hk
        have d2 : (decide (r.2.category ≠ "" ∧ r.2.category = k)) = true :=
          decide_eq_true ⟨hc, hk⟩
        rw [d1, d2]
        simp
      · simp [hk, hc]
    · rw [if_neg hc]
      simp only [List.any_cons, touches]
      have h2 : ¬(r.2.category ≠ "" ∧ r.2.category = k) := fun hh => hc hh.1
      simp [h2]

theorem foldl_merge_large (t : Int) (l : List (String × FileInfo))
    (acc : Aggregates) :
    (l.foldl (merge_result t) acc).large_files
      = acc.large_files ++ largeContrib t l := by
  induction l generalizing acc with
  | nil => simp [largeContrib]
  | cons r rest ih =>
    rw [List.foldl_cons, ih, merge_result_large_files]
    simp only [largeContrib, List.filterMap_cons]
    by_cases h : (r.2.size : Int) > t <;> simp [h, List.append_assoc]

theorem foldl_merge_unusual (t : Int) (l : List (String × FileInfo))
    (acc : Aggregates) :
    (l.foldl (merge_result t) acc).unusual_permissions
      = acc.unusual_permissions ++ unusualContrib l := by
  induction l generalizing acc with
  | nil => simp [unusualContrib]
  | cons r rest ih =>
    rw [List.foldl_cons, ih, merge_result_unusual]
    simp only [unusualContrib, List.filterMap_cons]
    by_cases h : r.2.permissions ∈ unusual_labels <;>
      simp [h, List.append_assoc]

theorem foldl_merge_sumTotals (t : Int) (l : List (String × FileInfo))
    (acc : Aggregates) :
    sumTotals (l.foldl (merge_result t) acc).file_categories
      = sumTotals acc.file_categories + (l.map sizeAdd).sum := by
  induction l generalizing acc with
  | nil => simp
  | cons r rest ih =>
    rw [List.foldl_cons, ih, merge_result_file_categories]
    by_cases hc : r.2.category ≠ ""
    · rw [if_pos hc, sumTotals_addToCategory]
      simp only [List.map_cons, List.sum_cons, sizeAdd, if_pos hc]
      omega
    · rw [if_neg hc]
      simp only [List.map_cons, List.sum_cons, sizeAdd, if_neg hc]
      omega

theorem merge_results_totalOf (t : Int) (l : List (String × FileInfo))
    (k : String) :
    totalOf (merge_results t l).file_categories k = catContrib k l := by
  unfold merge_results
  rw [foldl_merge_totalOf]
  simp [totalOf]

theorem merge_results_hasKey (t : Int) (l : List (String × FileInfo))
    (k : String) :
    hasKey (merge_results t l).file_categories k = l.any (touches k) := by
  unfold merge_results
  rw [foldl_merge_hasKey]
  simp [hasKey]

theorem merge_results_large (t : Int) (l : List (String × FileInfo)) :
    (merge_results t l).large_files = largeContrib t l := by
  unfold merge_results
  rw [foldl_merge_large]
  simp

theorem merge_results_unusual (t : Int) (l : List (String × FileInfo)) :
    (merge_results t l).unusual_permissions = unusualContrib l := by
  unfold merge_results
  rw [foldl_merge_unusual]
  simp

theorem merge_results_sumTotals (t : Int) (l : List (String × FileInfo)) :
    sumTotals (merge_results t l).file_categories = (l.map sizeAdd).sum := by
  unfold merge_results
  rw [foldl_merge_sumTotals]
  simp [sumTotals]

theorem any_perm {α : Type} (f : α → Bool) {l1 l2 : List α}
    (h : l1.Perm l2) : l1.any f = l2.any f := by
  apply Bool.coe_iff_coe.mp
  simp only [List.any_eq_true]
  constructor
  · rintro ⟨a, ha, hf⟩
    exact ⟨a, h.mem_iff.mp ha, hf⟩
  · rintro ⟨a, ha, hf⟩
    exact ⟨a, h.mem_iff.mpr ha, hf⟩

theorem analyze_directory_ok (fs : FS) (t : Int) (agg : Aggregates)
    (h : analyze_directory fs t = .ok agg) :
    agg = merge_results t (submitted_results fs t) := by
  unfold analyze_directory at h
  by_cases hd : os_path_isdir fs
  · rw [if_neg (by simpa using hd)] at h
    exact (Except.ok.injEq _ _ ▸ h).symm
  · rw [if_pos (by simpa using hd)] at h
    cases h

theorem submitted_results_paths (fs : FS) (t : Int) :
    (submitted_results fs t).map Prod.fst = (os_walk_files fs).map Prod.fst := by
  unfold submitted_results
  rw [List.map_map]
  have he : (Prod.fst ∘ fun pm : String × FileMeta =>
      analyze_file pm.1 pm.2 t) = Prod.fst := by
    funext pm
    exact analyze_file_fst pm.1 pm.2 t
  rw [he]

theorem mem_largeContrib (t : Int) (l : List (String × FileInfo))
    (q : String) (s : Nat) :
    (q, s) ∈ largeContrib t l
      ↔ ∃ r, r ∈ l ∧ r.1 = q ∧ r.2.size = s ∧ (s : Int) > t := by
  unfold largeContrib
  rw [List.mem_filterMap]
  constructor
  · rintro ⟨r, hr, hf⟩
    split at hf
    · rename_i h
      rw [Option.some.injEq, Prod.mk.injEq] at hf
      exact ⟨r, hr, hf.1, hf.2, hf.2 ▸ h⟩
    · exact absurd hf (by simp)
  · rintro ⟨r, hr, h1, h2, h3⟩
    refine ⟨r, hr, ?_⟩
    have h4 : (r.2.size : Int) > t := by rw [h2]; exact h3
    rw [if_pos h4, h1, h2]

theorem mem_unusualContrib (l : List (String × FileInfo))
    (q lbl : String) :
    (q, lbl) ∈ unusualContrib l
      ↔ ∃ r, r ∈ l ∧ r.1 = q ∧ r.2.permissions = lbl
          ∧ unusual_labels.contains lbl = true := by
  unfold unusualContrib
  rw [List.mem_filterMap]
  constructor
  · rintro ⟨r, hr, hf⟩
    split at hf
    · rename_i h
      rw [Option.some.injEq, Prod.mk.injEq] at hf
      exact ⟨r, hr, hf.1, hf.2, hf.2 ▸ h⟩
    · exact absurd hf (by simp)
  · rintro ⟨r, hr, h1, h2, h3⟩
    refine ⟨r, hr, ?_⟩
    have h4 : unusual_labels.contains r.2.permissions = true := by
      rw [h2]; exact h3
    rw [if_pos h4, h1, h2]

theorem countP_filterMap_path_le_one {β : Type}
    (f : String × FileInfo → Option (String × β))
    (hf : ∀ r e, f r = some e → e.1 = r.1)
    (l : List (String × FileInfo)) (h : (l.map Prod.fst).Nodup) (q : String) :
    (l.filterMap f).countP (fun e => e.1 = q) ≤ 1 := by
  induction l with
  | nil => simp
  | cons r rest ih =>
    rw [List.map_cons, List.nodup_cons] at h
    rw [List.filterMap_cons]
    cases hfr : f r with
    | none =>
      exact ih h.2
    | some e =>
      rw [List.countP_cons]
      by_cases hq : e.1 = q
      · have h0 : (rest.filterMap f).countP (fun x => decide (x.1 = q)) = 0 := by
          rw [List.countP_eq_zero]

          intro a ha
          rw [List.mem_filterMap] at ha
          obtain ⟨r2, hr2, hfa⟩ := ha
          have ha1 : a.1 = r2.1 := hf r2 a hfa
          simp only [decide_eq_true_eq]
          intro haq
          apply h.1
          have he1 : e.1 = r.1 := hf r e hfr
          have : r.1 = r2.1 := by rw [← he1, hq, ← haq, ha1]
          rw [this]
          exact List.mem_map_of_mem Prod.fst hr2
        rw [h0]
        simp [hq]
      · have hrest := ih h.2
        simp only [decide_eq_true_eq, hq]
        simpa using hrest

theorem catAdd_analyze (k p : String) (m : FileMeta) (t : Int) :
    catAdd k (analyze_file p m t) = sizeOfSuccessful k (p, m) := by
  cases hg : m.getsize with
  | error e =>
    rw [analyze_file_of_getsize_error p m t e hg]
    simp [catAdd, sizeOfSuccessful, hg]
  | ok sz =>
    have h1 := analyze_file_category_of_getsize_ok p m t sz hg
    have h2 := analyze_file_size_of_getsize_ok p m t sz hg
    simp only [catAdd, sizeOfSuccessful, hg, h1, h2]
    by_cases hk : get_category p = k
    · have hne : k ≠ "" := hk ▸ get_category_ne_empty p
      simp [hk, hne]
    · simp [hk]

theorem sizeAdd_analyze (p : String) (m : FileMeta) (t : Int) :
    sizeAdd (analyze_file p m t) = sizeIfOk (p, m) := by
  cases hg : m.getsize with
  | error e =>
    rw [analyze_file_of_getsize_error p m t e hg]
    simp [sizeAdd, sizeIfOk, hg]
  | ok sz =>
    have h1 := analyze_file_category_of_getsize_ok p m t sz hg
    have h2 := analyze_file_size_of_getsize_ok p m t sz hg
    simp [sizeAdd, sizeIfOk, hg, h1, h2, get_category_ne_empty p]

theorem catContrib_submitted (fs : FS) (t : Int) (k : String) :
    catContrib k (submitted_results fs t)
      = ((os_walk_files fs).map (sizeOfSuccessful k)).sum := by
  unfold catContrib submitted_results
  rw [List.map_map]
  have he : (catAdd k ∘ fun pm : String × FileMeta =>
      analyze_file pm.1 pm.2 t) = sizeOfSuccessful k := by
    funext pm
    exact catAdd_analyze k pm.1 pm.2 t
  rw [he]

theorem sizeAdd_submitted (fs : FS) (t : Int) :
    ((submitted_results fs t).map sizeAdd).sum
      = ((os_walk_files fs).map sizeIfOk).sum := by
  unfold submitted_results
  rw [List.map_map]
  have he : (sizeAdd ∘ fun pm : String × FileMeta =>
      analyze_file pm.1 pm.2 t) = sizeIfOk := by
    funext pm
    exact sizeAdd_analyze pm.1 pm.2 t
  rw [he]

theorem guess_ext_toLower_eq (b e1 e2 : String)
    (hl : strToLower e1 = strToLower e2)
    (he1 : List.lookup e1 encodings_map = none)
    (he2 : List.lookup e2 encodings_map = none) :
    strToLower (guess_ext b e1) = strToLower (guess_ext b e2) := by
  unfold guess_ext
  rw [hl]
  cases hsf : List.lookup (strToLower e2) suffix_map with
  | some repl => simp [hsf]
  | none => simp [hsf, he1, he2, hl]

theorem get_category_case_invariant (p1 p2 : String)
    (hbase : (splitext p1).1 = (splitext p2).1)
    (hext : strToLower (splitext p1).2 = strToLower (splitext p2).2)
    (he1 : List.lookup (splitext p1).2 encodings_map = none)
    (he2 : List.lookup (splitext p2).2 encodings_map = none) :
    get_category p1 = get_category p2 := by
  have hge : strToLower (guess_ext (splitext p1).1 (splitext p1).2)
      = strToLower (guess_ext (splitext p2).1 (splitext p2).2) := by
    rw [hbase]
    exact guess_ext_toLower_eq (splitext p2).1 _ _ hext he1 he2
  have hg : guess_type p1 = guess_type p2 := by
    unfold guess_type
    rw [hge]
  have hcbe : category_by_extension p1 = category_by_extension p2 := by
    unfold category_by_extension
    rw [hext]
  unfold get_category
  rw [hg, hcbe]

/- ------------------------------------------------------------------ -/
/- Claim theorems                                                     -/
/- ------------------------------------------------------------------ -/

/-- C1, counterexample: a run over a single file whose size retrieval fails
with NotFound does add a CategoryTotals entry — the merge loop receives the
default record (category "unknown", size 0) and materialises the key
"unknown" with value 0 in the `defaultdict`, refuting "it does not add to
any CategoryTotals entry (not even a zero for some category)". -/
theorem C1_counterexample :
    analyze_directory
        ⟨.openableDir, [("ghost.txt", ⟨.error .notFound, .error .notFound⟩)]⟩
        1000000
      = .ok ⟨[("unknown", 0)], [], []⟩
    ∧ hasKey [("unknown", 0)] "unknown" = true := by
  exact ⟨by decide, by decide⟩

/-- C1, amended: when size retrieval (step 1) fails, the file is not
dropped; `analyze_file` returns the default record (category "unknown",
size 0, permissions "normal"), whose merge leaves every category total's
value unchanged (it adds 0 bytes) but creates/touches the "unknown" entry,
and — for a non-negative threshold — adds the file to neither the
large-file list nor the unusual-permissions list. -/
theorem C1_failed_file_zeroed (t : Int) (acc : Aggregates) (p : String)
    (m : FileMeta) (e : PerFileError)
    (hg : m.getsize = .error e) (ht : 0 ≤ t) :
    analyze_file p m t = (p, ⟨"unknown", 0, "normal"⟩)
    ∧ (∀ k, totalOf (merge_result t acc (analyze_file p m t)).file_categories k
        = totalOf acc.file_categories k)
    ∧ hasKey (merge_result t acc (analyze_file p m t)).file_categories
        "unknown" = true
    ∧ (merge_result t acc (analyze_file p m t)).large_files = acc.large_files
    ∧ (merge_result t acc (analyze_file p m t)).unusual_permissions
        = acc.unusual_permissions := by
  have ha := analyze_file_of_getsize_error p m t e hg
  rw [ha]
  have hc : ((p, (⟨"unknown", 0, "normal"⟩ : FileInfo)).2.category ≠ "") := by
    simp
  refine ⟨rfl, ?_, ?_, ?_, ?_⟩
  · intro k
    rw [merge_result_file_categories, if_pos hc, totalOf_addToCategory]
    simp
  · rw [merge_result_file_categories, if_pos hc, hasKey_addToCategory]
    simp
  · rw [merge_result_large_files]
    have hlt : ¬(((p, (⟨"unknown", 0, "normal"⟩ : FileInfo)).2.size : Int) > t) := by
      simp
      omega
    rw [if_neg hlt]
    simp
  · rw [merge_result_unusual]
    rw [if_neg (by simp [unusual_labels])]
    simp

/-- C1, witness for the amended theorem. -/
theorem C1_failed_file_zeroed_witness :
    (merge_result 0 ⟨[], [], []⟩
        (analyze_file "g" ⟨.error .notFound, .error .notFound⟩ 0)).large_files
      = Aggregates.large_files ⟨[], [], []⟩ :=
  (C1_failed_file_zeroed 0 ⟨[], [], []⟩ "g"
    ⟨.error .notFound, .error .notFound⟩ .notFound rfl (by decide)).2.2.2.1

/-- C2: in any completed run, the value of every category's entry in
CategoryTotals equals the sum of the sizes of the walked files whose size
retrieval succeeded and that classify into that category (files whose size
retrieval failed contribute 0), and the sum over all categories equals the
sum of sizes of all files whose size retrieval succeeded. -/
theorem C2_category_totals (fs : FS) (t : Int) (agg : Aggregates)
    (h : analyze_directory fs t = .ok agg) :
    (∀ k, totalOf agg.file_categories k
        = ((os_walk_files fs).map (sizeOfSuccessful k)).sum)
    ∧ sumTotals agg.file_categories
        = ((os_walk_files fs).map sizeIfOk).sum := by
  have hagg := analyze_directory_ok fs t agg h
  subst hagg
  constructor
  · intro k
    rw [merge_results_totalOf, catContrib_submitted]
  · rw [merge_results_sumTotals, sizeAdd_submitted]

/-- C2, witness. -/
theorem C2_category_totals_witness :
    totalOf (Aggregates.file_categories ⟨[("text", 10)], [], []⟩) "text"
      = ((os_walk_files ⟨.openableDir, [("a.txt", ⟨.ok 10, .ok 416⟩)]⟩).map
          (sizeOfSuccessful "text")).sum :=
  (C2_category_totals ⟨.openableDir, [("a.txt", ⟨.ok 10, .ok 416⟩)]⟩ 1000000
    ⟨[("text", 10)], [], []⟩ (by decide)).1 "text"

/-- C3: a walked file whose size retrieval succeeded with size S appears in
the large-file list (as the pair of its path and S) iff S is strictly
greater than the threshold; in particular S = threshold is excluded. -/
theorem C3_large_file_threshold (fs : FS) (t : Int) (agg : Aggregates)
    (p : String) (m : FileMeta) (S : Nat)
    (h : analyze_directory fs t = .ok agg)
    (hmem : (p, m) ∈ os_walk_files fs)
    (hS : m.getsize = .ok S) :
    (p, S) ∈ agg.large_files ↔ (S : Int) > t := by
  have hagg := analyze_directory_ok fs t agg h
  subst hagg
  rw [merge_results_large]
  constructor
  · intro hin
    obtain ⟨r, hr, h1, h2, h3⟩ := (mem_largeContrib t _ p S).mp hin
    exact h3
  · intro hgt
    apply (mem_largeContrib t _ p S).mpr
    refine ⟨analyze_file p m t, ?_, analyze_file_fst p m t,
      analyze_file_size_of_getsize_ok p m t S hS, hgt⟩
    unfold submitted_results
    exact List.mem_map_of_mem _ hmem

/-- C3, witness. -/
theorem C3_large_file_threshold_witness :
    ("a.dat", (5 : Nat))
      ∈ Aggregates.large_files ⟨[("unknown", 5)], [("a.dat", 5)], []⟩ :=
  (C3_large_file_threshold ⟨.openableDir, [("a.dat", ⟨.ok 5, .ok 416⟩)]⟩ 3
    ⟨[("unknown", 5)], [("a.dat", 5)], []⟩ "a.dat" ⟨.ok 5, .ok 416⟩ 5
    (by decide) (by decide) rfl).mpr (by decide)

/-- C4, counterexample: a root that is a directory (os.path.isdir is true)
but cannot be opened does not make analyze fail: the walk silently yields
nothing and analyze returns ok with empty aggregates, refuting "if the root
directory ... cannot be opened, analyze fails immediately with a
DirectoryError". -/
theorem C4_counterexample :
    os_path_isdir ⟨.unopenableDir, [("a.txt", ⟨.ok 10, .ok 416⟩)]⟩ = true
    ∧ analyze_directory ⟨.unopenableDir, [("a.txt", ⟨.ok 10, .ok 416⟩)]⟩
        1000000
      = .ok ⟨[], [], []⟩ := by
  exact ⟨by decide, by decide⟩

/-- C4, amended: analyze fails — with the OSError message, before any
per-file work, producing no aggregates — iff `os.path.isdir(root)` is false
(root missing or not a directory); when isdir holds the run always returns
ok aggregates, so this is the only terminating error; an existing directory
whose listing fails passes the isdir check and yields ok with empty
aggregates. -/
theorem C4_root_check (fs : FS) (t : Int) :
    (os_path_isdir fs = false →
      analyze_directory fs t
        = .error "Directory does not exist or is inaccessible.")
    ∧ (os_path_isdir fs = true →
        analyze_directory fs t
          = .ok (merge_results t (submitted_results fs t)))
    ∧ (fs.root = RootStatus.unopenableDir →
        analyze_directory fs t = .ok ⟨[], [], []⟩) := by
  refine ⟨?_, ?_, ?_⟩
  · intro h
    unfold analyze_directory
    rw [if_pos (show ¬ os_path_isdir fs = true by simp [h])]
  · intro h
    unfold analyze_directory
    rw [if_neg (show ¬ ¬ os_path_isdir fs = true by simp [h])]
  · intro h
    have hd : os_path_isdir fs = true := by
      unfold os_path_isdir
      rw [h]
      rfl
    unfold analyze_directory
    rw [if_neg (show ¬ ¬ os_path_isdir fs = true by simp [hd])]
    have hw : os_walk_files fs = [] := by
      unfold os_walk_files
      rw [h]
    simp [submitted_results, hw, merge_results]

/-- C4, witness for the amended theorem. -/
theorem C4_root_check_witness :
    analyze_directory ⟨.notADir, []⟩ 7
      = .error "Directory does not exist or is inaccessible." :=
  (C4_root_check ⟨.notADir, []⟩ 7).1 (by decide)

/-- C5: for a file whose metadata calls both succeed, the permission flag
follows the priority chain world-writable, world-readable, world-executable,
normal — the first set bit of the mode wins — and a file with none of the
three bits set is "normal" and its merge appends nothing to the
unusual-permissions list. -/
theorem C5_permission_priority (p : String) (m : FileMeta) (t : Int)
    (sz mode : Nat) (hg : m.getsize = .ok sz) (hs : m.statMode = .ok mode) :
    (mode &&& S_IWOTH ≠ 0 →
      (analyze_file p m t).2.permissions = "Writable by others")
    ∧ (mode &&& S_IWOTH = 0 → mode &&& S_IROTH ≠ 0 →
      (analyze_file p m t).2.permissions = "Readable by others")
    ∧ (mode &&& S_IWOTH = 0 → mode &&& S_IROTH = 0 → mode &&& S_IXOTH ≠ 0 →
      (analyze_file p m t).2.permissions = "Executable by others")
    ∧ (mode &&& S_IWOTH = 0 → mode &&& S_IROTH = 0 → mode &&& S_IXOTH = 0 →
      (analyze_file p m t).2.permissions = "normal"
      ∧ ∀ acc : Aggregates,
          (merge_result t acc (analyze_file p m t)).unusual_permissions
            = acc.unusual_permissions) := by
  refine ⟨?_, ?_, ?_, ?_⟩
  · intro h1
    simp [analyze_file, hg, hs, h1]
  · intro h1 h2
    simp [analyze_file, hg, hs, h1, h2]
  · intro h1 h2 h3
    simp [analyze_file, hg, hs, h1, h2, h3]
  · intro h1 h2 h3
    have hperm : (analyze_file p m t).2.permissions = "normal" := by
      simp [analyze_file, hg, hs, h1, h2, h3]
    refine ⟨hperm, fun acc => ?_⟩
    rw [merge_result_unusual, hperm]
    rw [if_neg (by decide)]
    simp

/-- C5, witness: mode 0o007 has all three other-bits set and the
world-writable label wins. -/
theorem C5_permission_priority_witness :
    (analyze_file "w.txt" ⟨.ok 5, .ok 7⟩ 100).2.permissions
      = "Writable by others" :=
  (C5_permission_priority "w.txt" ⟨.ok 5, .ok 7⟩ 100 5 7 rfl rfl).1 (by decide)

/-- C6, counterexample: two paths that differ only in the case of their
extension classify differently — "a.txt.Z" matches the case-sensitive
compression-suffix map of `mimetypes.guess_type` (stripping ".Z" and
resolving "a.txt" to text/plain), while "a.txt.z" does not and falls
through to "unknown" — refuting "the result is invariant under changing
the case of the extension". -/
theorem C6_counterexample :
    (splitext "a.txt.z").1 = (splitext "a.txt.Z").1
    ∧ strToLower (splitext "a.txt.z").2 = strToLower (splitext "a.txt.Z").2
    ∧ get_category "a.txt.Z" = "text"
    ∧ get_category "a.txt.z" = "unknown" := by
  exact ⟨by decide, by decide, by decide, by decide⟩

/-- C6, amended: classify is total — every path yields one of the eight
category names; ".txt" classifies as text, ".png" as image, ".xyz" as
unknown; and the result is invariant under changing the case of the
extension whenever the extension (in either casing) is not an exact
case-sensitive match of a compression suffix (.gz/.Z/.bz2/.xz/.br) in the
stdlib encodings map. -/
theorem C6_classifier_total (p1 p2 : String)
    (hbase : (splitext p1).1 = (splitext p2).1)
    (hext : strToLower (splitext p1).2 = strToLower (splitext p2).2)
    (he1 : List.lookup (splitext p1).2 encodings_map = none)
    (he2 : List.lookup (splitext p2).2 encodings_map = none) :
    (∀ q, get_category q ∈ category_names)
    ∧ get_category "a.txt" = "text"
    ∧ get_category "b.png" = "image"
    ∧ get_category "x.xyz" = "unknown"
    ∧ get_category p1 = get_category p2 :=
  ⟨get_category_mem, by decide, by decide, by decide,
   get_category_case_invariant p1 p2 hbase hext he1 he2⟩

/-- C6, witness for the amended theorem. -/
theorem C6_classifier_total_witness :
    get_category "a.TXT" = get_category "a.txt"
    ∧ get_category "a.txt" = "text" :=
  ⟨(C6_classifier_total "a.TXT" "a.txt" (by decide) (by decide) (by decide)
      (by decide)).2.2.2.2,
   (C6_classifier_total "a.TXT" "a.txt" (by decide) (by decide) (by decide)
      (by decide)).2.1⟩

/-- C7: the aggregates are independent of the completion order — merging
the per-file results in any permutation of the submitted results yields the
same CategoryTotals dict (same keys, same values) and the same large-file
and unusual-permission lists up to permutation (equal as multisets). -/
theorem C7_order_independent (fs : FS) (t : Int) (agg : Aggregates)
    (completed : List (String × FileInfo))
    (h : analyze_directory fs t = .ok agg)
    (hperm : completed.Perm (submitted_results fs t)) :
    dictEq (merge_results t completed).file_categories agg.file_categories
    ∧ (merge_results t completed).large_files.Perm agg.large_files
    ∧ (merge_results t completed).unusual_permissions.Perm
        agg.unusual_permissions := by
  have hagg := analyze_directory_ok fs t agg h
  subst hagg
  refine ⟨⟨?_, ?_⟩, ?_, ?_⟩
  · intro k
    rw [merge_results_hasKey, merge_results_hasKey]
    exact any_perm _ hperm
  · intro k
    rw [merge_results_totalOf, merge_results_totalOf]
    unfold catContrib
    exact (hperm.map (catAdd k)).sum_eq
  · rw [merge_results_large, merge_results_large]
    exact hperm.filterMap _
  · rw [merge_results_unusual, merge_results_unusual]
    exact hperm.filterMap _

/-- C7, witness: merging two results in reversed completion order gives the
same "text" total. -/
theorem C7_order_independent_witness :
    totalOf (merge_results 1000000
        [("b.png", ⟨"image", 20, "normal"⟩),
         ("a.txt", ⟨"text", 10, "normal"⟩)]).file_categories "text"
      = totalOf
          (Aggregates.file_categories
            ⟨[("text", 10), ("image", 20)], [], []⟩) "text" :=
  ((C7_order_independent
      ⟨.openableDir, [("a.txt", ⟨.ok 10, .ok 416⟩), ("b.png", ⟨.ok 20, .ok 416⟩)]⟩
      1000000 ⟨[("text", 10), ("image", 20)], [], []⟩
      [("b.png", ⟨"image", 20, "normal"⟩), ("a.txt", ⟨"text", 10, "normal"⟩)]
      (by decide) (by decide)).1.2) "text"

/-- C8: a per-file error never propagates — `analyze_file` always returns a
(path, record) pair for the submitted path whatever the metadata-call
outcomes, and whenever the root passes the isdir check `analyze_directory`
returns ok, regardless of any per-file errors among the walked files. -/
theorem C8_per_file_errors_contained :
    (∀ (p : String) (m : FileMeta) (t : Int), (analyze_file p m t).1 = p)
    ∧ (∀ (fs : FS) (t : Int), os_path_isdir fs = true →
        ∃ agg, analyze_directory fs t = .ok agg) := by
  constructor
  · exact analyze_file_fst
  · intro fs t h
    refine ⟨merge_results t (submitted_results fs t), ?_⟩
    unfold analyze_directory
    rw [if_neg (show ¬ ¬ os_path_isdir fs = true by simp [h])]

/-- C8, witness: a run whose only file fails both metadata calls still
completes with ok. -/
theorem C8_per_file_errors_contained_witness :
    ∃ agg, analyze_directory
        ⟨.openableDir, [("x", ⟨.error .accessDenied, .error .ioError⟩)]⟩ 5
      = .ok agg :=
  C8_per_file_errors_contained.2
    ⟨.openableDir, [("x", ⟨.error .accessDenied, .error .ioError⟩)]⟩ 5
    (by decide)

/-- C9: the concrete scenario — a.txt of 10 bytes, b.png of 20 bytes,
big.dat of 2,000,000 bytes, all successfully inspected with mode 0o640
(none of the three other-bits set), threshold 1,000,000 — yields
CategoryTotals {text: 10, image: 20, unknown: 2000000}, the large-file list
[(big.dat, 2000000)] and an empty unusual-permissions list. -/
theorem C9_concrete_scenario :
    analyze_directory
        ⟨.openableDir,
         [("a.txt", ⟨.ok 10, .ok 416⟩), ("b.png", ⟨.ok 20, .ok 416⟩),
          ("big.dat", ⟨.ok 2000000, .ok 416⟩)]⟩ 1000000
      = .ok ⟨[("text", 10), ("image", 20), ("unknown", 2000000)],
             [("big.dat", 2000000)], []⟩ := by
  decide

/-- C10: every walked file's result is merged exactly once — the three
aggregates are exactly the one-pass fold over the submitted results (each
large-file and unusual-permission entry stems from one submitted task, no
result is dropped), and when the walked paths are distinct each path
appears at most once in the large-file list and at most once in the
unusual-permissions list. -/
theorem C10_each_file_once (fs : FS) (t : Int) (agg : Aggregates)
    (h : analyze_directory fs t = .ok agg)
    (hN : ((os_walk_files fs).map Prod.fst).Nodup) :
    agg.large_files = largeContrib t (submitted_results fs t)
    ∧ agg.unusual_permissions = unusualContrib (submitted_results fs t)
    ∧ (∀ k, totalOf agg.file_categories k
        = catContrib k (submitted_results fs t))
    ∧ (∀ q, agg.large_files.countP (fun e => e.1 = q) ≤ 1)
    ∧ (∀ q, agg.unusual_permissions.countP (fun e => e.1 = q) ≤ 1) := by
  have hagg := analyze_directory_ok fs t agg h
  subst hagg
  have hN2 : ((submitted_results fs t).map Prod.fst).Nodup := by
    rw [submitted_results_paths]
    exact hN
  refine ⟨merge_results_large t _, merge_results_unusual t _,
    fun k => merge_results_totalOf t _ k, ?_, ?_⟩
  · intro q
    rw [merge_results_large]
    refine countP_filterMap_path_le_one _ ?_ _ hN2 q
    intro r e hf
    split at hf
    · rw [Option.some.injEq] at hf
      rw [← hf]
    · cases hf
  · intro q
    rw [merge_results_unusual]
    refine countP_filterMap_path_le_one _ ?_ _ hN2 q
    intro r e hf
    split at hf
    · rw [Option.some.injEq] at hf
      rw [← hf]
    · cases hf

/-- C10, witness. -/
theorem C10_each_file_once_witness :
    Aggregates.large_files ⟨[("unknown", 5)], [("a", 5)], []⟩
      = largeContrib 3 (submitted_results ⟨.openableDir, [("a", ⟨.ok 5, .ok 416⟩)]⟩ 3) :=
  (C10_each_file_once ⟨.openableDir, [("a", ⟨.ok 5, .ok 416⟩)]⟩ 3
    ⟨[("unknown", 5)], [("a", 5)], []⟩ (by decide) (by decide)).1

end Analyzer
